import Mathlib

/-!
Verification of the Titanic analysis utilities (apputil.py).

The source operates on a pandas DataFrame loaded from a CSV of passenger
records.  We embed a passenger row as a record with the columns the code
uses; optional numeric columns (Age, Fare) become Option values, since
pandas represents a missing cell as NaN and every aggregation in the
source (cut, median, mean, min, max) skips missing values.  Ages and
fares are embedded as rationals.
-/

/-- One row of the Titanic CSV, with the columns used by apputil.py.
Age and Fare may be missing (NaN in pandas). -/
structure Passenger where
  passengerId : Nat
  survived : Bool
  pclass : Nat
  name : String
  sex : String
  age : Option ℚ
  sibsp : Nat
  parch : Nat
  fare : Option ℚ
  deriving Repr, DecidableEq

/-- The four ordered age-group labels used by survival_demographics. -/
inductive AgeGroup | Child | Teen | Adult | Senior
  deriving Repr, DecidableEq

/-- Position of a label in the ordered categorical
[Child, Teen, Adult, Senior]. -/
def AgeGroup.idx : AgeGroup → Nat
  | .Child => 0 | .Teen => 1 | .Adult => 2 | .Senior => 3

/-- The ordered category list passed to pd.cut (labels in apputil.py). -/
def ageLabels : List AgeGroup := [.Child, .Teen, .Adult, .Senior]

/-- Embeds pd.cut(df[Age], bins=[0,12,19,59,200], labels, right=True):
a known age falls in the half-open-on-the-left intervals (0,12], (12,19],
(19,59], (59,200]; values outside every bin, and missing ages, get no
label (NaN category in pandas). -/
def ageGroup (age : Option ℚ) : Option AgeGroup :=
  match age with
  | none => none
  | some a =>
    if 0 < a ∧ a ≤ 12 then some .Child
    else if 12 < a ∧ a ≤ 19 then some .Teen
    else if 19 < a ∧ a ≤ 59 then some .Adult
    else if 59 < a ∧ a ≤ 200 then some .Senior
    else none

/-- Embeds str.lower of Python: lowercase every character. -/
def lowerStr (s : String) : String := String.mk (s.data.map Char.toLower)

/-- Whitespace removal of str.strip at both ends of a character list. -/
def trimChars (l : List Char) : List Char :=
  ((l.dropWhile Char.isWhitespace).reverse.dropWhile Char.isWhitespace).reverse

/-- Embeds str.strip of Python: drop leading and trailing whitespace. -/
def stripStr (s : String) : String := String.mk (trimChars s.data)

/-- Embeds the sex-column cleaning df[Sex].str.lower().str.strip(). -/
def normSex (s : String) : String := stripStr (lowerStr s)

/-- Code-point lexicographic order on character lists, the order Python
uses to compare strings (the sorted call on the distinct sex values). -/
def strLEb : List Char → List Char → Bool
  | [], _ => true
  | _ :: _, [] => false
  | a :: as, b :: bs => if a < b then true else if a = b then strLEb as bs else false

/-- Code-point lexicographic order on strings. -/
def strLE (s t : String) : Prop := strLEb s.data t.data = true

instance : DecidableRel strLE := fun s t => by unfold strLE; infer_instance

/-- Unfolding of strLEb on two nonempty lists. -/
theorem strLEb_cons {a b : Char} {as bs : List Char} :
    strLEb (a :: as) (b :: bs) = true ↔ a < b ∨ (a = b ∧ strLEb as bs = true) := by
  simp [strLEb]

/-- Totality of the code-point order. -/
theorem strLEb_total : ∀ l₁ l₂ : List Char, strLEb l₁ l₂ = true ∨ strLEb l₂ l₁ = true
  | [], _ => Or.inl rfl
  | _ :: _, [] => Or.inr rfl
  | a :: as, b :: bs => by
    rcases lt_trichotomy a b with h | h | h
    · exact Or.inl (strLEb_cons.mpr (Or.inl h))
    · subst h
      rcases strLEb_total as bs with ih | ih
      · exact Or.inl (strLEb_cons.mpr (Or.inr ⟨rfl, ih⟩))
      · exact Or.inr (strLEb_cons.mpr (Or.inr ⟨rfl, ih⟩))
    · exact Or.inr (strLEb_cons.mpr (Or.inl h))

/-- Transitivity of the code-point order. -/
theorem strLEb_trans : ∀ l₁ l₂ l₃ : List Char,
    strLEb l₁ l₂ = true → strLEb l₂ l₃ = true → strLEb l₁ l₃ = true
  | [], _, _ => fun _ _ => rfl
  | _ :: _, [], _ => fun h _ => by simp [strLEb] at h
  | _ :: _, _ :: _, [] => fun _ h => by simp [strLEb] at h
  | a :: as, b :: bs, c :: cs => fun h₁ h₂ => by
    rcases strLEb_cons.mp h₁ with hab | ⟨hab, h₁'⟩ <;>
      rcases strLEb_cons.mp h₂ with hbc | ⟨hbc, h₂'⟩
    · exact strLEb_cons.mpr (Or.inl (lt_trans hab hbc))
    · exact strLEb_cons.mpr (Or.inl (hbc ▸ hab))
    · exact strLEb_cons.mpr (Or.inl (hab ▸ hbc))
    · exact strLEb_cons.mpr (Or.inr ⟨hab.trans hbc, strLEb_trans as bs cs h₁' h₂'⟩)

instance : IsTotal String strLE := ⟨fun s t => strLEb_total s.data t.data⟩

instance : IsTrans String strLE := ⟨fun s t u => strLEb_trans s.data t.data u.data⟩

/-- One output row of survival_demographics. -/
structure DemRow where
  pclass : Nat
  sex : String
  age_group : AgeGroup
  n_passengers : Nat
  n_survivors : Nat
  survival_rate : ℚ
  deriving Repr, DecidableEq

/-- Embeds the MultiIndex.from_product step of survival_demographics:
sorted distinct class values found in the data, times sorted distinct
cleaned sex values found in the data, times all four age-group labels,
in lexicographic order. -/
def demKeys (rows : List Passenger) : List (Nat × String × AgeGroup) :=
  let cs := ((rows.map (fun p => p.pclass)).dedup).insertionSort (· ≤ ·)
  let ss := ((rows.map (fun p => normSex p.sex)).dedup).insertionSort strLE
  cs ×ˢ (ss ×ˢ ageLabels)

/-- The aggregated row of survival_demographics for one
(pclass, sex, age_group) combination: passenger count, survivor count,
and survival rate.  A combination with no members gets counts 0 and
rate 0 (the reindex + fillna(0) step of the source); a nonempty group
gets rate survivors / passengers. -/
def demRowAt (rows : List Passenger) (k : Nat × String × AgeGroup) : DemRow :=
  let members := rows.filter
    (fun p => decide (p.pclass = k.1 ∧ normSex p.sex = k.2.1 ∧ ageGroup p.age = some k.2.2))
  let n := members.length
  let s := (members.filter (fun p => p.survived)).length
  { pclass := k.1, sex := k.2.1, age_group := k.2.2,
    n_passengers := n, n_survivors := s,
    survival_rate := if n = 0 then 0 else (s : ℚ) / (n : ℚ) }

/-- Embeds survival_demographics of apputil.py: group the passengers by
(pclass, cleaned sex, age group), reindex over the full product of
observed classes, observed sexes and the four labels with zero fill,
and sort by (pclass, sex, age_group).  Passengers whose age has no
group (missing, or outside (0,200]) are dropped by the groupby. -/
def survival_demographics (rows : List Passenger) : List DemRow :=
  (demKeys rows).map (demRowAt rows)

/-- Embeds df[SibSp] + df[Parch] + 1 of family_groups. -/
def familySize (p : Passenger) : Nat := p.sibsp + p.parch + 1

/-- One output row of family_groups. -/
structure FamRow where
  family_size : Nat
  pclass : Nat
  n_passengers : Nat
  avg_fare : Option ℚ
  min_fare : Option ℚ
  max_fare : Option ℚ
  deriving Repr, DecidableEq

/-- The final row order of family_groups: by pclass, then family_size
(the sort_values([pclass, family_size]) step). -/
def famKeyLE (a b : Nat × Nat) : Prop :=
  a.2 < b.2 ∨ (a.2 = b.2 ∧ a.1 ≤ b.1)

instance : DecidableRel famKeyLE := fun a b => by
  unfold famKeyLE; infer_instance

instance : IsTotal (Nat × Nat) famKeyLE :=
  ⟨by intro a b; unfold famKeyLE; omega⟩

instance : IsTrans (Nat × Nat) famKeyLE :=
  ⟨by intro a b c; unfold famKeyLE; omega⟩

/-- The (family_size, pclass) keys of the family_groups groupby: the
distinct pairs occurring in the data, ordered by class then size. -/
def famKeys (rows : List Passenger) : List (Nat × Nat) :=
  ((rows.map (fun p => (familySize p, p.pclass))).dedup).insertionSort famKeyLE

/-- The aggregated row of family_groups for one (family_size, pclass)
key: member count and mean/min/max fare over the members with a known
fare (pandas mean, min and max skip NaN; they are NaN when every fare
is missing, embedded as none). -/
def famRowAt (rows : List Passenger) (k : Nat × Nat) : FamRow :=
  let members := rows.filter (fun p => decide (familySize p = k.1 ∧ p.pclass = k.2))
  let fares := members.filterMap (fun p => p.fare)
  { family_size := k.1, pclass := k.2, n_passengers := members.length,
    avg_fare := if fares.length = 0 then none else some (fares.sum / (fares.length : ℚ)),
    min_fare := fares.min?, max_fare := fares.max? }

/-- Embeds family_groups of apputil.py: derive family_size, group by
(family_size, pclass) with count and fare statistics, and sort by
pclass then family_size. -/
def family_groups (rows : List Passenger) : List FamRow :=
  (famKeys rows).map (famRowAt rows)

/-- Embeds df[Name].str.split(,).str[0].str.strip() of last_names: the
text before the first comma (the whole name when no comma occurs),
trimmed. -/
def lastName (nm : String) : String :=
  stripStr (String.mk (nm.data.takeWhile (fun c => decide (c ≠ ','))))

/-- Descending-count order of a surname frequency table. -/
def cntGE (a b : String × Nat) : Prop := b.2 ≤ a.2

instance : DecidableRel cntGE := fun a b => by
  unfold cntGE; infer_instance

instance : IsTotal (String × Nat) cntGE :=
  ⟨by intro a b; unfold cntGE; omega⟩

instance : IsTrans (String × Nat) cntGE :=
  ⟨by intro a b c; unfold cntGE; omega⟩

/-- Embeds last_names of apputil.py: extract each surname and count
occurrences with value_counts, which returns the distinct values with
their counts ordered by descending count (stable, so ties keep first
appearance order). -/
def last_names (rows : List Passenger) : List (String × Nat) :=
  let names := rows.map (fun p => lastName p.name)
  ((names.dedup).map (fun s => (s, names.count s))).insertionSort cntGE

/-- Standard order-statistics median of a list of rationals: middle
element of the sorted list for odd length, average of the two middle
elements for even length, none for the empty list.  This is what the
pandas median aggregation computes over the non-missing values. -/
def listMedian (l : List ℚ) : Option ℚ :=
  let s := l.insertionSort (· ≤ ·)
  if s.length = 0 then none
  else if s.length % 2 = 1 then some (s.getD (s.length / 2) 0)
  else some ((s.getD (s.length / 2 - 1) 0 + s.getD (s.length / 2) 0) / 2)

/-- Embeds groupby(pclass)[age].transform(median) of
determine_age_division for one class: the median of the known ages of
that class (pandas median skips NaN, and is NaN when the class has no
known age, embedded as none). -/
def classMedian (rows : List Passenger) (c : Nat) : Option ℚ :=
  listMedian ((rows.filter (fun p => decide (p.pclass = c))).filterMap (fun p => p.age))

/-- Embeds df[age] > median_by_class for one passenger: true exactly
when the age is known, the class median is defined, and the age
strictly exceeds it; any comparison with NaN is False in pandas, so a
missing age (or an all-missing class) yields false. -/
def olderLabel (rows : List Passenger) (p : Passenger) : Bool :=
  match p.age, classMedian rows p.pclass with
  | some a, some m => decide (m < a)
  | _, _ => false

/-- Embeds determine_age_division of apputil.py: return every input row
paired with its older_passenger boolean. -/
def determine_age_division (rows : List Passenger) : List (Passenger × Bool) :=
  rows.map (fun p => (p, olderLabel rows p))

/-- Errors of the loading step as observed at the call sites of
apputil.py: the pd.read_csv call raises when the resource cannot be
fetched or parsed (dataUnavailable); a column access on the result
raises KeyError when a required column is absent, the string accessor
df[Sex].str and df[Name].str raises AttributeError on a non-text
column, and pd.cut on df[Age] raises TypeError on a non-numeric column
(all schemaMismatch).  Every such exception propagates to the caller.
No further error kind exists in the code: the remaining required
columns (Pclass, PassengerId, Survived) are consumed by grouping,
counting and summation, which accept values of any dtype. -/
inductive PipelineError | dataUnavailable | schemaMismatch
  deriving Repr, DecidableEq

/-- A raw CSV cell after pandas parsing: a number or a piece of text. -/
inductive Cell
  | num (q : ℚ)
  | txt (s : String)
  deriving Repr, DecidableEq

/-- Order on raw cells for the sorted unique Pclass keys: numbers by
value, text by code points.  pd.read_csv gives one dtype per column, so
a single parsed column never mixes the two kinds; the cross-kind case
(where the sorted of Python would raise) is fixed as numbers first. -/
def cellLE : Cell → Cell → Prop
  | Cell.num a, Cell.num b => a ≤ b
  | Cell.num _, Cell.txt _ => True
  | Cell.txt _, Cell.num _ => False
  | Cell.txt s, Cell.txt u => strLE s u

instance : DecidableRel cellLE := fun a b =>
  match a, b with
  | Cell.num a, Cell.num b => inferInstanceAs (Decidable (a ≤ b))
  | Cell.num _, Cell.txt _ => isTrue trivial
  | Cell.txt _, Cell.num _ => isFalse (fun h => h)
  | Cell.txt s, Cell.txt u => inferInstanceAs (Decidable (strLE s u))

/-- One parsed row as the loader-level analysis keeps it: the Pclass
cell stays raw, because no operation survival_demographics applies to
that column requires a numeric dtype, while the other used columns
appear with the types the pipeline needs once its type-sensitive
accessors have succeeded. -/
structure RawPassenger where
  passengerId : Nat
  survived : Bool
  pclassCell : Cell
  name : String
  sex : String
  age : Option ℚ
  deriving Repr, DecidableEq

/-- One output row of the demographics aggregation with the raw Pclass
cell as group key. -/
structure CellDemRow where
  pclass : Cell
  sex : String
  age_group : AgeGroup
  n_passengers : Nat
  n_survivors : Nat
  survival_rate : ℚ
  deriving Repr, DecidableEq

/-- The MultiIndex.from_product step over raw Pclass cells: sorted
distinct Pclass cells found in the data, times sorted distinct cleaned
sex values, times all four age-group labels, as in demKeys. -/
def cellDemKeys (rows : List RawPassenger) : List (Cell × String × AgeGroup) :=
  let cs := ((rows.map (fun p => p.pclassCell)).dedup).insertionSort cellLE
  let ss := ((rows.map (fun p => normSex p.sex)).dedup).insertionSort strLE
  cs ×ˢ (ss ×ˢ ageLabels)

/-- The aggregated row for one (Pclass cell, sex, age group)
combination, as in demRowAt. -/
def cellDemRowAt (rows : List RawPassenger) (k : Cell × String × AgeGroup) : CellDemRow :=
  let members := rows.filter (fun p =>
    decide (p.pclassCell = k.1 ∧ normSex p.sex = k.2.1 ∧ ageGroup p.age = some k.2.2))
  let n := members.length
  let s := (members.filter (fun p => p.survived)).length
  { pclass := k.1, sex := k.2.1, age_group := k.2.2,
    n_passengers := n, n_survivors := s,
    survival_rate := if n = 0 then 0 else (s : ℚ) / (n : ℚ) }

/-- The survival_demographics aggregation run on a frame whose Pclass
column may hold any dtype: the same computation as
survival_demographics, with the raw cells as class keys. -/
def survival_demographics_cells (rows : List RawPassenger) : List CellDemRow :=
  (cellDemKeys rows).map (cellDemRowAt rows)

/-- The surname frequency table of last_names computed over the parsed
rows, as in last_names. -/
def rawSurnames (rows : List RawPassenger) : List (String × Nat) :=
  let names := rows.map (fun p => lastName p.name)
  ((names.dedup).map (fun s => (s, names.count s))).insertionSort cntGE

/-- The parsed CSV as the loading step sees it: the header, the dtype
facts the pipeline is sensitive to (whether the Sex and Name columns
parsed as text and the Age column as numbers, pd.read_csv inferring one
dtype per column), and the row data.  The flags are authoritative for
the dtype of those three columns; the row payload is consumed only on
the path where the type-sensitive accessors succeeded. -/
structure RawFrame where
  header : List String
  sexIsText : Bool
  ageIsNumeric : Bool
  nameIsText : Bool
  rows : List RawPassenger
  deriving Repr, DecidableEq

/-- Embeds the survival_demographics pipeline from read_csv to the
grouped result: a failed fetch or parse propagates (dataUnavailable);
the string accessor on the Sex column raises when that column is absent
(KeyError) or not text (AttributeError); pd.cut on the Age column
raises when it is absent or not numeric (TypeError); accessing Pclass,
PassengerId or Survived raises only when the column is absent, their
values being consumed by grouping, counting and summation, which accept
any dtype.  On every other input the aggregation runs and its table is
returned, zero rows and wrong-typed Pclass columns included. -/
def survival_demographics_raw (fetch : Option RawFrame) :
    Except PipelineError (List CellDemRow) :=
  match fetch with
  | none => Except.error PipelineError.dataUnavailable
  | some t =>
    if ¬ ("Sex" ∈ t.header ∧ t.sexIsText = true) then
      Except.error PipelineError.schemaMismatch
    else if ¬ ("Age" ∈ t.header ∧ t.ageIsNumeric = true) then
      Except.error PipelineError.schemaMismatch
    else if ¬ ("Pclass" ∈ t.header ∧ "PassengerId" ∈ t.header ∧ "Survived" ∈ t.header) then
      Except.error PipelineError.schemaMismatch
    else
      Except.ok (survival_demographics_cells t.rows)

/-- Embeds the last_names pipeline: a failed fetch or parse propagates;
the split accessor on the Name column raises when that column is absent
(KeyError) or not text (AttributeError); otherwise the surname
frequency table of the parsed rows is returned, zero rows included. -/
def last_names_raw (fetch : Option RawFrame) :
    Except PipelineError (List (String × Nat)) :=
  match fetch with
  | none => Except.error PipelineError.dataUnavailable
  | some t =>
    if ¬ ("Name" ∈ t.header ∧ t.nameIsText = true) then
      Except.error PipelineError.schemaMismatch
    else
      Except.ok (rawSurnames t.rows)

/-- The header of the Titanic CSV the default URL serves. -/
def titanicHeader : List String :=
  ["PassengerId", "Survived", "Pclass", "Name", "Sex", "Age",
   "SibSp", "Parch", "Ticket", "Fare", "Cabin", "Embarked"]

/-- Example parsed row whose Pclass cell is the text value first
rather than a number. -/
def rawTextRow : RawPassenger :=
  ⟨1, true, Cell.txt "first", "Smith, A", "male", some 25⟩

/-- A zero-row frame with the full header and well-typed columns. -/
def exZeroRowFrame : RawFrame := ⟨titanicHeader, true, true, true, []⟩

/-- A frame with the full header whose required Pclass column parsed as
text. -/
def exTextPclassFrame : RawFrame := ⟨titanicHeader, true, true, true, [rawTextRow]⟩

/-- A frame with the full header whose Sex column parsed as numbers. -/
def exNumSexFrame : RawFrame := ⟨titanicHeader, false, true, true, []⟩

/-- A frame with the full header whose Name column parsed as numbers. -/
def exNumNameFrame : RawFrame := ⟨titanicHeader, true, true, false, []⟩

/-- Example passenger: third class, male, age 25, survived. -/
def pSmithA : Passenger := ⟨1, true, 3, "Smith, A", "male", some 25, 0, 0, some 7⟩

/-- Example passenger: third class, female, age 30, died. -/
def pSmithB : Passenger := ⟨2, false, 3, "Smith, B", "female", some 30, 1, 0, some 8⟩

/-- Example passenger: third class, female, missing age. -/
def pJonesC : Passenger := ⟨3, true, 3, "Jones, C", "female", none, 0, 0, none⟩

/-- Example passenger: third class, male, age 40, survived. -/
def pDoe40 : Passenger := ⟨4, true, 3, "Doe, D", "male", some 40, 0, 0, some 9⟩

/-- Example passenger: third class, male, age 20, died. -/
def pRoe20 : Passenger := ⟨5, false, 3, "Roe, E", "male", some 20, 0, 0, none⟩

/-- Example dataset whose class-3 known ages are 20, 30 and 40, with one
further passenger of unknown age. -/
def exDiv : List Passenger := [pRoe20, pSmithB, pDoe40, pJonesC]

/-- Example dataset of the surname-frequency test case. -/
def exLN : List Passenger := [pSmithA, pSmithB, pJonesC]

/-- C1, counterexample: pd.cut with bins [0, 12, 19, 59, 200] and
right-inclusive intervals leaves age 0 outside every bin, so a passenger
aged exactly 0 is assigned no age group, contradicting that age 0 maps
to Child. -/
theorem c1_age_zero_counterexample : ageGroup (some 0) ≠ some AgeGroup.Child := by
  decide

/-- C1, amended: age-group assignment is a total function of age with
the fixed boundaries, except at age 0, which falls outside every bin
and gets no group: ages 0 and 201 and a missing age map to no group,
12 to Child, 13 and 19 to Teen, 20 and 59 to Adult, 60 and 200 to
Senior. -/
theorem c1_age_group_boundaries :
    ageGroup (some 0) = none ∧
    ageGroup (some 12) = some AgeGroup.Child ∧
    ageGroup (some 13) = some AgeGroup.Teen ∧
    ageGroup (some 19) = some AgeGroup.Teen ∧
    ageGroup (some 20) = some AgeGroup.Adult ∧
    ageGroup (some 59) = some AgeGroup.Adult ∧
    ageGroup (some 60) = some AgeGroup.Senior ∧
    ageGroup (some 200) = some AgeGroup.Senior ∧
    ageGroup (some 201) = none ∧
    ageGroup none = none := by
  decide

/-- C3: in every survival_demographics row the survivor count is at most
the passenger count, and the rate equals survivors over passengers for a
nonempty group and 0 for an empty one, so the rate column never holds an
undefined value. -/
theorem c3_rate_consistency :
    ∀ rows r, r ∈ survival_demographics rows →
      r.n_survivors ≤ r.n_passengers ∧
      r.survival_rate =
        if r.n_passengers = 0 then 0
        else (r.n_survivors : ℚ) / (r.n_passengers : ℚ) := by
  intro rows r hr
  simp only [survival_demographics] at hr
  obtain ⟨k, _, rfl⟩ := List.mem_map.1 hr
  exact ⟨List.length_filter_le _ _, rfl⟩

/-- C3 witness: the adult-male row of the example dataset. -/
theorem c3_witness :
    (demRowAt exDiv (3, "male", AgeGroup.Adult)).n_survivors ≤
        (demRowAt exDiv (3, "male", AgeGroup.Adult)).n_passengers ∧
    (demRowAt exDiv (3, "male", AgeGroup.Adult)).survival_rate =
      if (demRowAt exDiv (3, "male", AgeGroup.Adult)).n_passengers = 0 then 0
      else ((demRowAt exDiv (3, "male", AgeGroup.Adult)).n_survivors : ℚ) /
        ((demRowAt exDiv (3, "male", AgeGroup.Adult)).n_passengers : ℚ) :=
  c3_rate_consistency exDiv _ (List.mem_map.2 ⟨(3, "male", AgeGroup.Adult), by decide, rfl⟩)

/-- C8: family size always equals sibsp + parch + 1, hence is at least
1, and the family_size of every family_groups row is sibsp + parch + 1
of some input passenger. -/
theorem c8_family_size_formula :
    (∀ p : Passenger, familySize p = p.sibsp + p.parch + 1 ∧ 1 ≤ familySize p) ∧
    ∀ rows r, r ∈ family_groups rows →
      ∃ q, q ∈ rows ∧ r.family_size = q.sibsp + q.parch + 1 := by
  constructor
  · intro p
    exact ⟨rfl, by unfold familySize; omega⟩
  · intro rows r hr
    simp only [family_groups] at hr
    obtain ⟨k, hk, rfl⟩ := List.mem_map.1 hr
    simp only [famKeys] at hk
    rw [List.mem_insertionSort, List.mem_dedup] at hk
    obtain ⟨q, hq, hqk⟩ := List.mem_map.1 hk
    refine ⟨q, hq, ?_⟩
    rw [← hqk]
    rfl

/-- C8 witness: the size-2 class-3 family row of the example dataset. -/
theorem c8_witness :
    (familySize pSmithB = pSmithB.sibsp + pSmithB.parch + 1 ∧ 1 ≤ familySize pSmithB) ∧
    ∃ q, q ∈ exDiv ∧ (famRowAt exDiv (2, 3)).family_size = q.sibsp + q.parch + 1 :=
  ⟨c8_family_size_formula.1 pSmithB,
    c8_family_size_formula.2 exDiv (famRowAt exDiv (2, 3))
      (List.mem_map.2 ⟨(2, 3), by decide, rfl⟩)⟩

/-- C9: determine_age_division keeps every input row, in order, with a
boolean label for each, and a passenger with a missing age is labelled
false rather than excluded. -/
theorem c9_missing_age_false :
    ∀ rows : List Passenger,
      (determine_age_division rows).map Prod.fst = rows ∧
      (determine_age_division rows).length = rows.length ∧
      ∀ p, p ∈ rows → p.age = none → (p, false) ∈ determine_age_division rows := by
  intro rows
  refine ⟨?_, ?_, ?_⟩
  · simp [determine_age_division, Function.comp_def]
  · simp [determine_age_division]
  · intro p hp hnone
    have hl : olderLabel rows p = false := by
      unfold olderLabel
      cases hcm : classMedian rows p.pclass <;> rw [hnone]
    exact List.mem_map.2 ⟨p, hp, by rw [hl]⟩

/-- C9 witness: the ageless passenger of the example dataset is kept and
labelled false. -/
theorem c9_witness : (pJonesC, false) ∈ determine_age_division exDiv :=
  (c9_missing_age_false exDiv).2.2 pJonesC (by decide) rfl

/-- C2: the class median of determine_age_division is the
order-statistics median of the known ages of that class, every row keeps
its passenger with a boolean label, and a passenger with known age is
labelled true exactly when the age strictly exceeds the defined class
median (so a passenger exactly at the median is labelled false). -/
theorem c2_median_division :
    ∀ rows : List Passenger,
      (∀ c, classMedian rows c =
        listMedian ((rows.filter (fun q => decide (q.pclass = c))).filterMap
          (fun q => q.age))) ∧
      determine_age_division rows = rows.map (fun p => (p, olderLabel rows p)) ∧
      ∀ p a, p ∈ rows → p.age = some a →
        (olderLabel rows p = true ↔
          ∃ m, classMedian rows p.pclass = some m ∧ m < a) := by
  intro rows
  refine ⟨fun c => rfl, rfl, ?_⟩
  intro p a _ ha
  unfold olderLabel
  rw [ha]
  cases hcm : classMedian rows p.pclass with
  | none => simp
  | some m => simp

/-- C2 witness: with class-3 known ages 20, 30 and 40 the median is 30;
the passenger aged 40 is labelled true and the one aged 30 false. -/
theorem c2_witness :
    olderLabel exDiv pDoe40 = true ∧ olderLabel exDiv pSmithB = false ∧
    classMedian exDiv 3 = some 30 :=
  ⟨((c2_median_division exDiv).2.2 pDoe40 40 (by decide) rfl).mpr
      ⟨30, by decide, by decide⟩,
    by decide, by decide⟩

/-- C6: last_names returns surname/count pairs ordered by descending
count, contains the pair of every occurring surname with its occurrence
count, and on the three-name example yields Smith with count 2 ranked
first and Jones with count 1. -/
theorem c6_surname_counts :
    (∀ rows : List Passenger,
      (last_names rows).Pairwise cntGE ∧
      ∀ s, s ∈ rows.map (fun p => lastName p.name) →
        (s, (rows.map (fun p => lastName p.name)).count s) ∈ last_names rows) ∧
    last_names exLN = [("Smith", 2), ("Jones", 1)] := by
  constructor
  · intro rows
    constructor
    · exact List.sorted_insertionSort cntGE _
    · intro s hs
      simp only [last_names]
      rw [List.mem_insertionSort]
      exact List.mem_map.2 ⟨s, List.mem_dedup.2 hs, rfl⟩
  · decide

/-- C6 witness: Smith occurs twice in the example and its pair is in the
table. -/
theorem c6_witness :
    ("Smith", (exLN.map (fun p => lastName p.name)).count "Smith") ∈ last_names exLN :=
  (c6_surname_counts.1 exLN).2 "Smith" (by decide)

/-- C4: for every class value and cleaned sex value occurring in the
data and each of the four age groups, the corresponding aggregated row
is in the output of survival_demographics; a combination containing at
least one passenger has a positive count (no occupied group is
dropped), and a combination containing none appears with count 0,
survivor count 0 and rate 0 (one consistent zero-fill policy). -/
theorem c4_group_coverage :
    ∀ rows c s g, c ∈ rows.map (fun p => p.pclass) →
      s ∈ rows.map (fun p => normSex p.sex) →
      demRowAt rows (c, s, g) ∈ survival_demographics rows ∧
      (∀ p, p ∈ rows → ageGroup p.age = some g → normSex p.sex = s → p.pclass = c →
        1 ≤ (demRowAt rows (c, s, g)).n_passengers) ∧
      ((rows.filter (fun p =>
          decide (p.pclass = c ∧ normSex p.sex = s ∧ ageGroup p.age = some g))).length = 0 →
        (demRowAt rows (c, s, g)).n_passengers = 0 ∧
        (demRowAt rows (c, s, g)).n_survivors = 0 ∧
        (demRowAt rows (c, s, g)).survival_rate = 0) := by
  intro rows c s g hc hs
  have hkey : (c, s, g) ∈ demKeys rows := by
    simp only [demKeys]
    refine List.mem_product.2 ⟨?_, List.mem_product.2 ⟨?_, ?_⟩⟩
    · rw [List.mem_insertionSort, List.mem_dedup]
      exact hc
    · rw [List.mem_insertionSort, List.mem_dedup]
      exact hs
    · cases g <;> simp [ageLabels]
  refine ⟨List.mem_map_of_mem _ hkey, ?_, ?_⟩
  · intro p hp hg hs' hc'
    have hmem : p ∈ rows.filter (fun p =>
        decide (p.pclass = c ∧ normSex p.sex = s ∧ ageGroup p.age = some g)) :=
      List.mem_filter.2 ⟨hp, by simp [hc', hs', hg]⟩
    exact List.length_pos_of_mem hmem
  · intro h0
    have hm : rows.filter (fun p =>
        decide (p.pclass = c ∧ normSex p.sex = s ∧ ageGroup p.age = some g)) = [] :=
      List.length_eq_zero.1 h0
    refine ⟨h0, ?_, ?_⟩
    · show ((rows.filter (fun p =>
          decide (p.pclass = c ∧ normSex p.sex = s ∧ ageGroup p.age = some g))).filter
            (fun p => p.survived)).length = 0
      rw [hm]
      rfl
    · show (if (rows.filter (fun p =>
          decide (p.pclass = c ∧ normSex p.sex = s ∧ ageGroup p.age = some g))).length = 0
          then (0 : ℚ)
          else (((rows.filter (fun p =>
            decide (p.pclass = c ∧ normSex p.sex = s ∧ ageGroup p.age = some g))).filter
              (fun p => p.survived)).length : ℚ) /
            ((rows.filter (fun p =>
              decide (p.pclass = c ∧ normSex p.sex = s ∧ ageGroup p.age = some g))).length : ℚ))
        = 0
      rw [if_pos h0]

/-- C4 witness: the empty female-senior group of the example dataset is
present with zero counts and zero rate. -/
theorem c4_witness :
    demRowAt exDiv (3, "female", AgeGroup.Senior) ∈ survival_demographics exDiv ∧
    (∀ p, p ∈ exDiv → ageGroup p.age = some AgeGroup.Senior →
      normSex p.sex = "female" → p.pclass = 3 →
      1 ≤ (demRowAt exDiv (3, "female", AgeGroup.Senior)).n_passengers) ∧
    ((exDiv.filter (fun p => decide (p.pclass = 3 ∧ normSex p.sex = "female" ∧
        ageGroup p.age = some AgeGroup.Senior))).length = 0 →
      (demRowAt exDiv (3, "female", AgeGroup.Senior)).n_passengers = 0 ∧
      (demRowAt exDiv (3, "female", AgeGroup.Senior)).n_survivors = 0 ∧
      (demRowAt exDiv (3, "female", AgeGroup.Senior)).survival_rate = 0) :=
  c4_group_coverage exDiv 3 "female" AgeGroup.Senior (by decide) (by decide)

/-- Pairwise order of a list product: components of an earlier pair are
either strictly earlier in the first list or equal there and ordered in
the second. -/
theorem pairwise_sprod {α β : Type _} {R : α → α → Prop} {S : β → β → Prop}
    {l₁ : List α} {l₂ : List β} (h₁ : l₁.Pairwise R) (h₂ : l₂.Pairwise S) :
    (l₁ ×ˢ l₂).Pairwise (fun x y => R x.1 y.1 ∨ (x.1 = y.1 ∧ S x.2 y.2)) := by
  rw [show l₁ ×ˢ l₂ = l₁.flatMap (fun a => l₂.map (Prod.mk a)) from rfl,
    List.pairwise_flatMap]
  constructor
  · intro a _
    exact List.pairwise_map.2 (h₂.imp (fun hS => Or.inr ⟨rfl, hS⟩))
  · refine h₁.imp ?_
    intro a b hR x hx y hy
    obtain ⟨xa, _, rfl⟩ := List.mem_map.1 hx
    obtain ⟨ya, _, rfl⟩ := List.mem_map.1 hy
    exact Or.inl hR

/-- Ascending (pclass, sex, age_group) order between two output rows of
survival_demographics, with age groups ordered Child, Teen, Adult,
Senior. -/
def demRowLE (r r' : DemRow) : Prop :=
  r.pclass < r'.pclass ∨
    (r.pclass = r'.pclass ∧
      ((strLE r.sex r'.sex ∧ r.sex ≠ r'.sex) ∨
        (r.sex = r'.sex ∧ r.age_group.idx ≤ r'.age_group.idx)))

/-- Ascending (pclass, family_size) order between two output rows of
family_groups. -/
def famRowLE (r r' : FamRow) : Prop :=
  r.pclass < r'.pclass ∨ (r.pclass = r'.pclass ∧ r.family_size ≤ r'.family_size)

/-- The full grouping key of one passenger in survival_demographics:
defined exactly when the age falls in a bin. -/
def demKey (p : Passenger) : Option (Nat × String × AgeGroup) :=
  (ageGroup p.age).map (fun g => (p.pclass, normSex p.sex, g))

/-- A passenger matches a combination exactly when that combination is
its grouping key. -/
theorem demKey_eq_iff (p : Passenger) (k : Nat × String × AgeGroup) :
    demKey p = some k ↔
      (p.pclass = k.1 ∧ normSex p.sex = k.2.1 ∧ ageGroup p.age = some k.2.2) := by
  obtain ⟨k1, k2, k3⟩ := k
  cases hag : ageGroup p.age <;> simp [demKey, hag, Prod.ext_iff]

/-- A sum of indicator terms over a list not containing the index is 0. -/
theorem sum_if_not_mem {κ : Type _} [DecidableEq κ] (k₀ : κ) :
    ∀ keys : List κ, k₀ ∉ keys →
      (keys.map (fun k => if k₀ = k then 1 else 0)).sum = 0 := by
  intro keys h
  induction keys with
  | nil => rfl
  | cons a l ih =>
    have h1 : ¬ (k₀ = a) := fun e => h (by rw [e]; exact List.mem_cons_self a l)
    have h2 : k₀ ∉ l := fun hm => h (List.mem_cons_of_mem a hm)
    simp [h1, ih h2]

/-- A sum of indicator terms over a duplicate-free list containing the
index is 1. -/
theorem sum_if_mem {κ : Type _} [DecidableEq κ] (k₀ : κ) :
    ∀ keys : List κ, keys.Nodup → k₀ ∈ keys →
      (keys.map (fun k => if k₀ = k then 1 else 0)).sum = 1 := by
  intro keys
  induction keys with
  | nil => intro _ h; cases h
  | cons a l ih =>
    intro hnd hm
    rcases List.mem_cons.1 hm with rfl | hm'
    · have hout : k₀ ∉ l := (List.nodup_cons.1 hnd).1
      simp [sum_if_not_mem k₀ l hout]
    · have h1 : ¬ (k₀ = a) := fun e => (List.nodup_cons.1 hnd).1 (e ▸ hm')
      simp [h1, ih (List.nodup_cons.1 hnd).2 hm']

/-- Sums of pointwise sums of naturals split. -/
theorem sum_map_add {κ : Type _} (keys : List κ) (A B : κ → Nat) :
    (keys.map (fun k => A k + B k)).sum = (keys.map A).sum + (keys.map B).sum := by
  induction keys with
  | nil => rfl
  | cons a l ih =>
    simp only [List.map_cons, List.sum_cons, ih]
    omega

/-- Counting each key group separately and summing counts every element
whose key is defined exactly once, provided the key list has no
duplicates and covers every defined key. -/
theorem sum_countP_keys {α κ : Type _} [DecidableEq κ] (f : α → Option κ) :
    ∀ (rows : List α) (keys : List κ), keys.Nodup →
      (∀ p ∈ rows, ∀ k, f p = some k → k ∈ keys) →
      (keys.map (fun k => rows.countP (fun p => decide (f p = some k)))).sum
        = rows.countP (fun p => (f p).isSome) := by
  intro rows
  induction rows with
  | nil =>
    intro keys _ _
    rw [List.countP_nil]
    refine List.sum_eq_zero ?_
    intro x hx
    obtain ⟨k, _, rfl⟩ := List.mem_map.1 hx
    rfl
  | cons p rest ih =>
    intro keys hnd hcov
    have hrest := ih keys hnd (fun q hq => hcov q (List.mem_cons_of_mem _ hq))
    calc (keys.map (fun k => (p :: rest).countP (fun q => decide (f q = some k)))).sum
        = (keys.map (fun k => rest.countP (fun q => decide (f q = some k))
            + (if f p = some k then 1 else 0))).sum := by
          refine congrArg List.sum (List.map_congr_left ?_)
          intro k _
          rw [List.countP_cons]
          simp
      _ = (keys.map (fun k => rest.countP (fun q => decide (f q = some k)))).sum
            + (keys.map (fun k => if f p = some k then 1 else 0)).sum :=
          sum_map_add keys _ _
      _ = rest.countP (fun q => (f q).isSome)
            + (if (f p).isSome then 1 else 0) := by
          rw [hrest]
          congr 1
          cases hf : f p with
          | none => simp [hf]
          | some k₀ =>
            have hk₀ : k₀ ∈ keys := hcov p (List.mem_cons_self p rest) k₀ hf
            simp only [hf, Option.some.injEq, Option.isSome_some, if_true]
            exact sum_if_mem k₀ keys hnd hk₀
      _ = (p :: rest).countP (fun q => (f q).isSome) := by
          rw [List.countP_cons]

/-- C10: the passenger counts of all survival_demographics rows sum to
the number of input passengers whose age lies in (0, 200]; a passenger
with a missing or out-of-range age is counted in no row, since there is
no unknown-age bucket. -/
theorem c10_counts_partition :
    ∀ rows : List Passenger,
      ((survival_demographics rows).map (fun r => r.n_passengers)).sum
        = (rows.filter (fun p => (ageGroup p.age).isSome)).length ∧
      ∀ a : ℚ, (ageGroup (some a)).isSome ↔ 0 < a ∧ a ≤ 200 := by
  intro rows
  constructor
  · have hnodup : (demKeys rows).Nodup := by
      simp only [demKeys]
      refine List.Nodup.product ?_ (List.Nodup.product ?_ ?_)
      · exact (List.perm_insertionSort _ _).nodup_iff.2 (List.nodup_dedup _)
      · exact (List.perm_insertionSort _ _).nodup_iff.2 (List.nodup_dedup _)
      · decide
    have hcov : ∀ p ∈ rows, ∀ k, demKey p = some k → k ∈ demKeys rows := by
      intro p hp k hk
      obtain ⟨k1, k2, k3⟩ := k
      obtain ⟨h1, h2, _⟩ := (demKey_eq_iff p (k1, k2, k3)).1 hk
      simp only [demKeys]
      refine List.mem_product.2 ⟨?_, List.mem_product.2 ⟨?_, ?_⟩⟩
      · rw [List.mem_insertionSort, List.mem_dedup]
        exact List.mem_map.2 ⟨p, hp, h1⟩
      · rw [List.mem_insertionSort, List.mem_dedup]
        exact List.mem_map.2 ⟨p, hp, h2⟩
      · cases k3 <;> simp [ageLabels]
    have hpt : ∀ k ∈ demKeys rows,
        (fun r : DemRow => r.n_passengers) (demRowAt rows k)
          = rows.countP (fun p => decide (demKey p = some k)) := by
      intro k _
      show (rows.filter (fun p => decide (p.pclass = k.1 ∧ normSex p.sex = k.2.1 ∧
        ageGroup p.age = some k.2.2))).length = _
      rw [← List.countP_eq_length_filter]
      refine List.countP_congr ?_
      intro x _
      simp only [decide_eq_true_eq]
      exact (demKey_eq_iff x k).symm
    calc ((survival_demographics rows).map (fun r => r.n_passengers)).sum
        = ((demKeys rows).map
            (fun k => rows.countP (fun p => decide (demKey p = some k)))).sum := by
          simp only [survival_demographics, List.map_map]
          exact congrArg List.sum (List.map_congr_left hpt)
      _ = rows.countP (fun p => (demKey p).isSome) :=
          sum_countP_keys demKey rows (demKeys rows) hnodup hcov
      _ = (rows.filter (fun p => (ageGroup p.age).isSome)).length := by
          rw [← List.countP_eq_length_filter]
          refine List.countP_congr ?_
          intro x _
          simp [demKey]
  · intro a
    simp only [ageGroup]
    split_ifs with h1 h2 h3 h4
    · exact iff_of_true rfl ⟨h1.1, h1.2.trans (by norm_num)⟩
    · exact iff_of_true rfl ⟨lt_trans (by norm_num) h2.1, h2.2.trans (by norm_num)⟩
    · exact iff_of_true rfl ⟨lt_trans (by norm_num) h3.1, h3.2.trans (by norm_num)⟩
    · exact iff_of_true rfl ⟨lt_trans (by norm_num) h4.1, h4.2⟩
    · refine iff_of_false (by simp) ?_
      rintro ⟨hpos, hle⟩
      rcases le_or_lt a 12 with h | h
      · exact h1 ⟨hpos, h⟩
      rcases le_or_lt a 19 with h' | h'
      · exact h2 ⟨h, h'⟩
      rcases le_or_lt a 59 with h'' | h''
      · exact h3 ⟨h', h''⟩
      exact h4 ⟨h'', hle⟩
